import Mathlib

/-!
Verification of the post-lifecycle / scheduler / multi-platform publishing
core of the social-planner backend.

The definitions below are a shallow embedding of the JavaScript source:

* the data model mirrors the rows of the posts table and the in-memory post
  objects built by the routes (database-pg.js, server routes);
* the route handlers model the state-changing behaviour of
  POST /api/drafts, /api/posts/send-for-approval, /api/posts/approve,
  /api/posts/reject, /api/schedule, /api/post-now;
* the cron job (cron.schedule, runs every minute) is modelled as cronTick;
* the platform adapters postToFacebook / postToLinkedIn are modelled at two
  levels: their media routing (which upload they attempt, a pure function of
  the post handed to them) and, for orchestration claims, as environment
  oracles returning success or a thrown error.

External effects (network calls to the platforms, object-storage
downloads and uploads, current time) are supplied by an Env record so that
the state transitions themselves are pure and executable.
-/

/-- JavaScript truthiness of an optional string: null, undefined and the
empty string are falsy. -/
def strTruthy : Option String → Bool
  | none => false
  | some s => s ≠ ""

/-- Post lifecycle status values stored in the status column. -/
inductive Status where
  | draft
  | pending_approval
  | scheduled
  | published
  | failed
  deriving DecidableEq, Repr

/-- One row of the post_media table / one entry of a mediaItems array.
The type field is the stored string tag (image, video or pdf); base64Data
is only populated in memory after a storage download. -/
structure MediaItem where
  url : String
  type : String
  mimeType : Option String := none
  fileName : Option String := none
  base64Data : Option String := none
  deriving DecidableEq, Repr

/-- The approval_status JSONB column. approved is three-valued:
none models null/unset, some true approval, some false rejection. -/
structure ApprovalStatus where
  approverId : String
  requestedBy : String := ""
  requestedAt : Option String := none
  note : String := ""
  approved : Option Bool := none
  approvedAt : Option String := none
  rejectedReason : Option String := none
  deriving DecidableEq, Repr

/-- The platforms flags of a post (platforms_facebook, platforms_linkedin
columns). -/
structure Platforms where
  facebook : Bool := false
  linkedin : Bool := false
  deriving DecidableEq, Repr

/-- The outcome of one platform adapter invocation: the ok payload is the
platform API response, error carries the thrown message. -/
inductive PubResult where
  | ok (v : String)
  | error (e : String)
  deriving DecidableEq, Repr

/-- The per-platform results map persisted in the results JSONB column.
An entry of none means the platform was never given a result entry. -/
structure Results where
  facebook : Option PubResult := none
  linkedin : Option PubResult := none
  deriving DecidableEq, Repr

/-- A post: one row of the posts table together with the transient
in-memory fields (media, mediaItems) the routes attach before handing the
post to the adapters.  deletedAt is the soft-deletion tombstone. -/
structure Post where
  id : String
  userId : String := ""
  caption : String := ""
  media : Option String := none
  mediaUrl : Option String := none
  mediaItems : List MediaItem := []
  platforms : Platforms := {}
  linkedInOrganizationId : Option String := none
  pdfTitle : Option String := none
  scheduleDate : String := ""
  scheduleTime : String := ""
  status : Status := .draft
  approvalStatus : Option ApprovalStatus := none
  publishedAt : Option String := none
  results : Option Results := none
  deletedAt : Option String := none
  deriving DecidableEq, Repr

/-- The durable state the routes and the cron job read and write: the posts
table, the post_media table (keyed by post id), and the set of object urls
present in storage. -/
structure Store where
  posts : List Post := []
  postMedia : List (String × List MediaItem) := []
  storage : List String := []
  deriving DecidableEq, Repr

/-- Modelled from the spec: pgDb.getPostMedia looks up the post_media rows of
one post (the newer database module holding it is not under src/; its row
shape is taken from the call sites).  Missing key yields the empty list. -/
def getPostMedia (s : Store) (postId : String) : List MediaItem :=
  match s.postMedia.find? (fun e => e.fst == postId) with
  | some e => e.snd
  | none => []

/-- pgDb.getPost: first row with the given id. -/
def getById (l : List Post) (postId : String) : Option Post :=
  l.find? (fun p => p.id == postId)

/-- pgDb.updatePost: replace the row(s) with the given id by the updated
row (the update always carries the same id). -/
def updateById (l : List Post) (postId : String) (p : Post) : List Post :=
  l.map (fun q => if q.id == postId then p else q)

/-- A typed external-call outcome (ok payload or thrown message). -/
inductive Res (α : Type) where
  | ok (v : α)
  | error (e : String)
  deriving DecidableEq, Repr

/-- The external world as seen by the routes and the cron job: adapter
outcomes, storage transfer outcomes, and the current business-timezone
time in the two representations the code uses (a comparable instant for
the cron job Date comparison, and date / time strings for the approve
route string comparison). -/
structure Env where
  fb : Post → PubResult
  li : Post → PubResult
  download : String → PubResult
  upload : String → PubResult
  deleteMedia : String → Res Unit
  parseDT : String → String → Int
  limaNow : Int
  limaDate : String
  limaTime : String
  nowIso : String
  genId : String

/-- Split a character list at every occurrence of a separator, the list
analogue of the JavaScript String.split used by the source. -/
def splitOnChar (c : Char) : List Char → List (List Char)
  | [] => [[]]
  | x :: xs =>
    let r := splitOnChar c xs
    if x == c then [] :: r
    else
      match r with
      | y :: ys => (x :: y) :: ys
      | [] => [[x]]

/-- String prefix test on the underlying character lists (the JavaScript
startsWith). -/
def strStartsWith (s pre : String) : Bool :=
  pre.data.isPrefixOf s.data

/-- Lexicographic strict comparison of character lists, the order the
JavaScript string comparison operators use (code units, here characters). -/
def charListLt : List Char → List Char → Bool
  | [], [] => false
  | [], _ :: _ => true
  | _ :: _, [] => false
  | a :: as, b :: bs =>
    if a < b then true else if b < a then false else charListLt as bs

/-- JavaScript string less-or-equal, lexicographic. -/
def strLe (a b : String) : Bool :=
  !(charListLt b.data a.data)

/-- The mime type of a data url, as computed by
data.split(";")[0].split(":")[1] in the source. -/
def dataUrlMime (s : String) : String :=
  String.mk ((splitOnChar ':' ((splitOnChar ';' s.data).headD [])).getD 1 [])

/-- One connected Facebook page of the app-level token (id and page access
token). -/
structure FbPage where
  id : String
  access_token : String
  deriving DecidableEq, Repr

/-- The app-level Facebook connection: a user token with its pages. -/
structure FbToken where
  pages : List FbPage := []
  deriving DecidableEq, Repr

/-- What postToFacebook attempts for a given post: the routing decision of
the adapter, before any network outcome is known. -/
inductive FbPlan where
  | errNotConnected
  | errNoPages
  | multiImage (images : List MediaItem)
  | singleUpload (data : String) (contentType : String) (isVideo : Bool)
  | textOnly
  deriving DecidableEq, Repr

/-- The media routing of postToFacebook: images and videos are the media
items whose stored type tag matches and whose base64Data is truthy; pdfs
are only counted for the skip warning.  Two or more images take the
multi-image path; otherwise a single medium is chosen as the first image,
else the first video, else the legacy postData.media string; with no
medium the post is text only. -/
def fbPlan (fbToken : Option FbToken) (postData : Post) : FbPlan :=
  match fbToken with
  | none => .errNotConnected
  | some t =>
    if t.pages.isEmpty then .errNoPages
    else
      let mediaItems := postData.mediaItems
      let images := mediaItems.filter (fun m => m.type == "image" && strTruthy m.base64Data)
      let videos := mediaItems.filter (fun m => m.type == "video" && strTruthy m.base64Data)
      if images.length > 1 then .multiImage images
      else
        let singleMedia : Option String :=
          if images.length == 1 then images.head?.bind MediaItem.base64Data
          else if videos.length > 0 then videos.head?.bind MediaItem.base64Data
          else if strTruthy postData.media then postData.media
          else none
        match singleMedia with
        | some d =>
          let mediaType := dataUrlMime d
          .singleUpload d mediaType (strStartsWith mediaType "video/")
        | none => .textOnly

/-- The media items of a post whose stored type tag is pdf, as counted by
postToFacebook for its skip warning. -/
def fbPdfs (postData : Post) : List MediaItem :=
  postData.mediaItems.filter (fun m => m.type == "pdf")

/-- One LinkedIn organization of the app-level connection. -/
structure LiOrg where
  id : String
  deriving DecidableEq, Repr

/-- The app-level LinkedIn connection. -/
structure LiToken where
  accessToken : String := ""
  organizations : List LiOrg := []
  deriving DecidableEq, Repr

/-- getMediaType of postToLinkedIn: the kind of a media item detected from
the stored type tag, the declared mime type, or the data url header, in
that order; anything else counts as an image. -/
def getMediaType (m : MediaItem) : String :=
  if m.type == "pdf" || m.mimeType == some "application/pdf" then "pdf"
  else if strStartsWith (m.base64Data.getD "") "data:application/pdf" then "pdf"
  else if m.type == "video" || strStartsWith (m.mimeType.getD "") "video/" then "video"
  else if strStartsWith (m.base64Data.getD "") "data:video/" then "video"
  else "image"

/-- The pdf media items postToLinkedIn detects (kind pdf with truthy
base64Data). -/
def liPdfs (postData : Post) : List MediaItem :=
  postData.mediaItems.filter (fun m => getMediaType m == "pdf" && strTruthy m.base64Data)

/-- Which publishing flow postToLinkedIn takes for a given post, once the
organization is resolved. -/
inductive LiRoute where
  | document (pdf : MediaItem)
  | multiImage (images : List MediaItem)
  | singleMedia (data : String) (category : String)
  | textOnly
  deriving DecidableEq, Repr

/-- The media routing of postToLinkedIn: a present pdf takes priority and
only the first one is used; else two or more images fan out; else a single
image, video or legacy medium; else text only. -/
def liRoute (postData : Post) : LiRoute :=
  let mediaItems := postData.mediaItems
  let images := mediaItems.filter (fun m => getMediaType m == "image" && strTruthy m.base64Data)
  let videos := mediaItems.filter (fun m => getMediaType m == "video" && strTruthy m.base64Data)
  match liPdfs postData with
  | pdf :: _ => .document pdf
  | [] =>
    if images.length > 1 then .multiImage images
    else
      let sm : Option (String × String) :=
        if images.length == 1 then
          (images.head?.bind MediaItem.base64Data).map (fun d => (d, "IMAGE"))
        else if videos.length > 0 then
          (videos.head?.bind MediaItem.base64Data).map (fun d => (d, "VIDEO"))
        else if strTruthy postData.media then
          postData.media.map (fun d =>
            (d, if strStartsWith (dataUrlMime d) "video/" then "VIDEO" else "IMAGE"))
        else none
      match sm with
      | some (d, cat) => .singleMedia d cat
      | none => .textOnly

/-- The outcome of resolving the LinkedIn connection and target
organization, before routing. -/
inductive LiPlan where
  | errNotConnected
  | errOrgNotFound (organizationId : String)
  | errNoOrgs
  | route (org : LiOrg) (r : LiRoute)
  deriving DecidableEq, Repr

/-- Connection and organization resolution of postToLinkedIn: explicit
organization id must be among the connected organizations, otherwise the
first connected organization is used. -/
def liPlan (liToken : Option LiToken) (postData : Post) (organizationId : Option String) : LiPlan :=
  match liToken with
  | none => .errNotConnected
  | some t =>
    match organizationId with
    | some oid =>
      match t.organizations.find? (fun org => org.id == oid) with
      | none => .errOrgNotFound oid
      | some org => .route org (liRoute postData)
    | none =>
      match t.organizations with
      | [] => .errNoOrgs
      | org :: _ => .route org (liRoute postData)

/-- The three external calls of the LinkedIn document flow: initialize the
upload (returning the upload url and the document urn), PUT the pdf bytes
to the upload url, and create the post referencing the document urn. -/
structure DocFlowEnv where
  initUpload : Res (String × String)
  putBytes : String → Res Unit
  createPost : String → Res String

/-- The LinkedIn document flow: the three steps in order; any failing step
is rethrown with the LinkedIn PDF upload failed prefix, never silently
replaced by a text-only post. -/
def runDocumentFlow (env : DocFlowEnv) : PubResult :=
  match env.initUpload with
  | .error e => .error ("LinkedIn PDF upload failed: " ++ e)
  | .ok (uploadUrl, documentUrn) =>
    match env.putBytes uploadUrl with
    | .error e => .error ("LinkedIn PDF upload failed: " ++ e)
    | .ok _ =>
      match env.createPost documentUrn with
      | .error e => .error ("LinkedIn PDF upload failed: " ++ e)
      | .ok v => .ok v

/-- Download each media item of a post as base64; an item whose download
fails is dropped with a warning rather than aborting the post. -/
def downloadItems (env : Env) (items : List MediaItem) : List MediaItem :=
  items.filterMap (fun it =>
    match env.download it.url with
    | .ok b => some { it with base64Data := some b }
    | .error _ => none)

/-- Media preparation of the cron job before it hands a post to the
adapters: load and download the post_media items; if there are none and a
legacy mediaUrl exists and media is not already set, download the legacy
medium into media; attach the items; and backfill media from the first
item when media is still unset. -/
def cronPrepare (env : Env) (s : Store) (post : Post) : Post :=
  let mediaItemsWithBase64 := downloadItems env (getPostMedia s post.id)
  let post :=
    if mediaItemsWithBase64.isEmpty && strTruthy post.mediaUrl && !(strTruthy post.media) then
      match env.download (post.mediaUrl.getD "") with
      | .ok b => { post with media := some b }
      | .error _ => post
    else post
  let post := { post with mediaItems := mediaItemsWithBase64 }
  if mediaItemsWithBase64.length > 0 && !(strTruthy post.media) then
    { post with media := mediaItemsWithBase64.head?.bind MediaItem.base64Data }
  else post

/-- Media preparation of the approve route before an immediate publish:
same as the cron preparation except that the legacy branch does not test
whether media is already set. -/
def approvePrepare (env : Env) (s : Store) (post : Post) : Post :=
  let mediaItemsWithBase64 := downloadItems env (getPostMedia s post.id)
  let post :=
    if mediaItemsWithBase64.isEmpty && strTruthy post.mediaUrl then
      match env.download (post.mediaUrl.getD "") with
      | .ok b => { post with media := some b }
      | .error _ => post
    else post
  let post := { post with mediaItems := mediaItemsWithBase64 }
  if mediaItemsWithBase64.length > 0 && !(strTruthy post.media) then
    { post with media := mediaItemsWithBase64.head?.bind MediaItem.base64Data }
  else post

/-- The two defensive guards of the cron job: a post is skipped when its
approval metadata shows approved strictly false, or when approval metadata
is present and approved is not strictly true. -/
def cronSkips (post : Post) : Bool :=
  (match post.approvalStatus with
   | some a => a.approved == some false
   | none => false)
  ||
  (match post.approvalStatus with
   | some a => !(a.approved == some true)
   | none => false)

/-- The platforms an adapter invocation belongs to. -/
inductive Platform where
  | facebook
  | linkedin
  deriving DecidableEq, Repr

/-- A record of one adapter invocation: which platform was called and the
prepared post it was handed. -/
structure AdapterCall where
  platform : Platform
  post : Post
  deriving DecidableEq, Repr

/-- One due post processed by the cron job: media preparation, then the
enabled adapters awaited in sequence inside a single try block.  A thrown
adapter error aborts the block and the catch sets only status failed; if
no adapter throws the post is set published with the collected results and
the publication timestamp.  The second component records the adapter
invocations made. -/
def cronAttempt (env : Env) (s : Store) (post : Post) : Post × List AdapterCall :=
  let prepared := cronPrepare env s post
  if post.platforms.facebook then
    match env.fb prepared with
    | .error _ => ({ post with status := .failed }, [⟨.facebook, prepared⟩])
    | .ok fbv =>
      if post.platforms.linkedin then
        match env.li prepared with
        | .error _ =>
          ({ post with status := .failed }, [⟨.facebook, prepared⟩, ⟨.linkedin, prepared⟩])
        | .ok liv =>
          ({ post with
              status := .published
              publishedAt := some env.nowIso
              results := some ({ facebook := some (.ok fbv), linkedin := some (.ok liv) } : Results) },
           [⟨.facebook, prepared⟩, ⟨.linkedin, prepared⟩])
      else
        ({ post with
            status := .published
            publishedAt := some env.nowIso
            results := some ({ facebook := some (.ok fbv), linkedin := none } : Results) },
         [⟨.facebook, prepared⟩])
  else if post.platforms.linkedin then
    match env.li prepared with
    | .error _ => ({ post with status := .failed }, [⟨.linkedin, prepared⟩])
    | .ok liv =>
      ({ post with
          status := .published
          publishedAt := some env.nowIso
          results := some ({ facebook := none, linkedin := some (.ok liv) } : Results) },
       [⟨.linkedin, prepared⟩])
  else
    ({ post with
        status := .published
        publishedAt := some env.nowIso
        results := some ({} : Results) }, [])

/-- The ORDER BY schedule_date, schedule_time ordering of the cron query:
lexicographic on the date string, then the time string. -/
def schedLE (p q : Post) : Prop :=
  p.scheduleDate < q.scheduleDate ∨
    (p.scheduleDate = q.scheduleDate ∧ p.scheduleTime ≤ q.scheduleTime)

instance : DecidableRel schedLE := fun p q => by
  unfold schedLE; infer_instance

instance : IsTotal Post schedLE := by
  constructor
  intro a b
  rcases lt_trichotomy a.scheduleDate b.scheduleDate with h | h | h
  · exact Or.inl (Or.inl h)
  · rcases le_total a.scheduleTime b.scheduleTime with ht | ht
    · exact Or.inl (Or.inr ⟨h, ht⟩)
    · exact Or.inr (Or.inr ⟨h.symm, ht⟩)
  · exact Or.inr (Or.inl h)

instance : IsTrans Post schedLE := by
  constructor
  intro a b c hab hbc
  rcases hab with h1 | ⟨h1, t1⟩
  · rcases hbc with h2 | ⟨h2, _⟩
    · exact Or.inl (h1.trans h2)
    · exact Or.inl (h2 ▸ h1)
  · rcases hbc with h2 | ⟨h2, t2⟩
    · exact Or.inl (h1 ▸ h2)
    · exact Or.inr ⟨h1.trans h2, t1.trans t2⟩

/-- The candidate query of a cron tick: all non-tombstoned posts with
status exactly scheduled, ordered by schedule date then schedule time. -/
def cronQuery (s : Store) : List Post :=
  List.insertionSort schedLE
    (s.posts.filter (fun p => p.status == Status.scheduled && p.deletedAt == none))

/-- The running state of one cron tick: the posts table as updated so far
and the adapter invocations made so far. -/
structure TickResult where
  posts : List Post
  calls : List AdapterCall
  deriving DecidableEq, Repr

/-- Processing of one candidate inside a tick: the rejected-post guard and
the non-approved guard skip the post; a post whose parsed schedule instant
is still in the future is left alone; otherwise the publish attempt runs
and its outcome is written back to the row with that id. -/
def cronStep (env : Env) (s : Store) (acc : TickResult) (post : Post) : TickResult :=
  if cronSkips post then acc
  else if env.parseDT post.scheduleDate post.scheduleTime ≤ env.limaNow then
    let r := cronAttempt env s post
    { posts := updateById acc.posts post.id r.fst, calls := acc.calls ++ r.snd }
  else acc

/-- One tick of the cron job: query the candidates once, then process them
in order against the queried snapshot. -/
def cronTick (env : Env) (s : Store) : TickResult :=
  (cronQuery s).foldl (cronStep env s) { posts := s.posts, calls := [] }

/-- The request body fields of the post-creating routes. -/
structure PostData where
  id : Option String := none
  caption : String := ""
  media : Option String := none
  mediaItems : List MediaItem := []
  platforms : Platforms := {}
  linkedInOrganizationId : Option String := none
  pdfTitle : Option String := none
  scheduleDate : String := ""
  scheduleTime : String := ""
  approvalStatus : Option ApprovalStatus := none
  deriving DecidableEq, Repr

/-- The media upload step shared by the drafts, schedule and post-now
routes: a non-empty mediaItems collection is uploaded item by item with
per-item failures dropped; else a legacy single medium is uploaded and a
failure aborts the request; the first uploaded url doubles as the legacy
mediaUrl. -/
def uploadRequestMedia (env : Env) (postData : PostData) :
    Res (List MediaItem × Option String) :=
  if !postData.mediaItems.isEmpty then
    let uploaded := postData.mediaItems.filterMap (fun it =>
      match env.upload (it.base64Data.getD "") with
      | .ok url =>
        some { url := url
               type := if it.type == "" then "image" else it.type
               mimeType := it.mimeType
               fileName := it.fileName }
      | .error _ => none)
    .ok (uploaded, uploaded.head?.map MediaItem.url)
  else if strTruthy postData.media then
    match env.upload (postData.media.getD "") with
    | .ok url =>
      let mediaType := dataUrlMime (postData.media.getD "")
      .ok ([{ url := url
              type := if mediaType == "application/pdf" then "pdf"
                      else if strStartsWith mediaType "video/" then "video"
                      else "image"
              mimeType := some mediaType }], some url)
    | .error _ => .error "Error al subir la imagen/video"
  else .ok ([], none)

/-- pgDb.updatePost applied with the post object the upsert routes build:
only the fields present in that object are written; results, publishedAt,
the media column and the tombstone of the stored row are untouched. -/
def applyUpsertFields (old new : Post) : Post :=
  { old with
      userId := new.userId
      caption := new.caption
      mediaUrl := new.mediaUrl
      platforms := new.platforms
      linkedInOrganizationId := new.linkedInOrganizationId
      pdfTitle := new.pdfTitle
      scheduleDate := new.scheduleDate
      scheduleTime := new.scheduleTime
      status := new.status
      approvalStatus := new.approvalStatus }

/-- pgDb.updatePostMedia / createPostMedia: replace the post_media rows of
one post. -/
def setPostMedia (pm : List (String × List MediaItem)) (postId : String)
    (items : List MediaItem) : List (String × List MediaItem) :=
  pm.filter (fun e => e.fst ≠ postId) ++ [(postId, items)]

/-- The upsert shared by the drafts, schedule and post-now routes: update
the existing row with the fields of the built post object, or insert a new
row; media rows are only written when at least one item was uploaded. -/
def upsertPost (s : Store) (post : Post) (uploadedMediaItems : List MediaItem)
    (withPublishFields : Bool) : Store :=
  let posts :=
    match getById s.posts post.id with
    | some old =>
      let updated :=
        if withPublishFields then
          { applyUpsertFields old post with
              publishedAt := post.publishedAt
              results := post.results }
        else applyUpsertFields old post
      updateById s.posts post.id updated
    | none => s.posts ++ [post]
  let postMedia :=
    if uploadedMediaItems.isEmpty then s.postMedia
    else setPostMedia s.postMedia post.id uploadedMediaItems
  { s with posts := posts, postMedia := postMedia }

/-- POST /api/drafts: upload the request media, then upsert the post with
status draft and the caller-supplied approval metadata; uploaded objects
appear in storage. -/
def saveDraft (env : Env) (s : Store) (userId : String) (postData : PostData) :
    Res Store :=
  match uploadRequestMedia env postData with
  | .error e => .error e
  | .ok (uploadedMediaItems, mediaUrl) =>
    let postId := if strTruthy postData.id then postData.id.getD "" else env.genId
    let post : Post :=
      { id := postId
        userId := if userId == "" then "default_user" else userId
        caption := postData.caption
        mediaUrl := mediaUrl
        platforms := postData.platforms
        linkedInOrganizationId := postData.linkedInOrganizationId
        pdfTitle := postData.pdfTitle
        scheduleDate := postData.scheduleDate
        scheduleTime := postData.scheduleTime
        status := .draft
        approvalStatus := postData.approvalStatus }
    let s := { s with storage := s.storage ++ uploadedMediaItems.map MediaItem.url }
    .ok (upsertPost s post uploadedMediaItems false)

/-- POST /api/schedule: same upsert with status scheduled. -/
def schedulePost (env : Env) (s : Store) (userId : String) (postData : PostData) :
    Res Store :=
  match uploadRequestMedia env postData with
  | .error e => .error e
  | .ok (uploadedMediaItems, mediaUrl) =>
    let postId := if strTruthy postData.id then postData.id.getD "" else env.genId
    let post : Post :=
      { id := postId
        userId := if userId == "" then "default_user" else userId
        caption := postData.caption
        mediaUrl := mediaUrl
        platforms := postData.platforms
        linkedInOrganizationId := postData.linkedInOrganizationId
        pdfTitle := postData.pdfTitle
        scheduleDate := postData.scheduleDate
        scheduleTime := postData.scheduleTime
        status := .scheduled
        approvalStatus := postData.approvalStatus }
    let s := { s with storage := s.storage ++ uploadedMediaItems.map MediaItem.url }
    .ok (upsertPost s post uploadedMediaItems false)

/-- The in-memory post the post-now route hands to the adapters: request
media downloaded back as base64 and the legacy medium backfilled from the
first item. -/
def postNowPrepared (env : Env) (userId : String) (postData : PostData)
    (uploadedMediaItems : List MediaItem) : Post :=
  let mediaItemsWithBase64 := downloadItems env uploadedMediaItems
  let mediaBase64 :=
    if strTruthy postData.media then postData.media
    else mediaItemsWithBase64.head?.bind MediaItem.base64Data
  { id := if strTruthy postData.id then postData.id.getD "" else env.genId
    userId := if userId == "" then "default_user" else userId
    caption := postData.caption
    media := mediaBase64
    mediaItems := mediaItemsWithBase64
    platforms := postData.platforms
    linkedInOrganizationId := postData.linkedInOrganizationId
    pdfTitle := postData.pdfTitle
    scheduleDate := postData.scheduleDate
    scheduleTime := postData.scheduleTime }

/-- The sequential adapter phase of post-now: each enabled adapter is
awaited with no per-platform catch, so the first thrown error aborts the
whole request. -/
def postNowAdapters (env : Env) (postData : PostData) (prepared : Post) :
    Res Results :=
  let fbStep : Res (Option PubResult) :=
    if postData.platforms.facebook then
      match env.fb prepared with
      | .ok v => .ok (some (.ok v))
      | .error e => .error e
    else .ok none
  match fbStep with
  | .error e => .error e
  | .ok fbRes =>
    let liStep : Res (Option PubResult) :=
      if postData.platforms.linkedin then
        match env.li prepared with
        | .ok v => .ok (some (.ok v))
        | .error e => .error e
      else .ok none
    match liStep with
    | .error e => .error e
    | .ok liRes => .ok { facebook := fbRes, linkedin := liRes }

/-- POST /api/post-now: upload the request media, prepare the post, run the
adapters; a thrown adapter error aborts the request before any row is
written.  On success the post is upserted as published with the results
map. -/
def postNow (env : Env) (s : Store) (userId : String) (postData : PostData) :
    Res (Store × Results) :=
  match uploadRequestMedia env postData with
  | .error e => .error e
  | .ok (uploadedMediaItems, mediaUrl) =>
    let prepared := postNowPrepared env userId postData uploadedMediaItems
    match postNowAdapters env postData prepared with
    | .error e => .error e
    | .ok results =>
      let post : Post :=
        { id := if strTruthy postData.id then postData.id.getD "" else env.genId
          userId := if userId == "" then "default_user" else userId
          caption := postData.caption
          mediaUrl := mediaUrl
          platforms := postData.platforms
          linkedInOrganizationId := postData.linkedInOrganizationId
          pdfTitle := postData.pdfTitle
          scheduleDate := postData.scheduleDate
          scheduleTime := postData.scheduleTime
          status := .published
          publishedAt := some env.nowIso
          results := some results }
      let s := { s with storage := s.storage ++ uploadedMediaItems.map MediaItem.url }
      .ok (upsertPost s post uploadedMediaItems true, results)

/-- The per-platform results the approve route collects when it publishes
immediately: each enabled adapter is invoked under its own catch, so its
entry is exactly the adapter outcome; a disabled platform gets no entry. -/
def approveResults (env : Env) (s : Store) (post : Post) : Results :=
  let prepared := approvePrepare env s post
  { facebook := if post.platforms.facebook then some (env.fb prepared) else none
    linkedin := if post.platforms.linkedin then some (env.li prepared) else none }

/-- Whether at least one enabled platform succeeded, as the approve route
computes it from the collected results. -/
def approveAnySuccess (post : Post) (results : Results) : Bool :=
  (post.platforms.facebook &&
    (match results.facebook with | some (.ok _) => true | _ => false)) ||
  (post.platforms.linkedin &&
    (match results.linkedin with | some (.ok _) => true | _ => false))

/-- The body of the approve route once the post is loaded and the approver
matched: set the approval flag true; compare the effective schedule
strings lexicographically with the current Lima date and time strings; a
due post is published immediately (any success wins), otherwise the post
becomes scheduled with the effective date and time. -/
def approveDecide (env : Env) (s : Store) (postId : String) (post : Post)
    (a : ApprovalStatus) (scheduledDate scheduledTime : Option String) :
    Store × Bool × Option Results :=
  let updatedApprovalStatus :=
    { a with approved := some true, approvedAt := some env.nowIso }
  let finalScheduleDate :=
    if strTruthy scheduledDate then scheduledDate.getD "" else post.scheduleDate
  let finalScheduleTime :=
    if strTruthy scheduledTime then scheduledTime.getD "" else post.scheduleTime
  if strLe (finalScheduleDate ++ " " ++ finalScheduleTime)
      (env.limaDate ++ " " ++ env.limaTime) then
    let results := approveResults env s post
    let anySuccess := approveAnySuccess post results
    let finalStatus := if anySuccess then Status.published else Status.failed
    let updated :=
      { post with
          status := finalStatus
          publishedAt := if anySuccess then some env.nowIso else none
          results := some results
          approvalStatus := some updatedApprovalStatus }
    ({ s with posts := updateById s.posts postId updated }, true, some results)
  else
    let updated :=
      { post with
          status := .scheduled
          scheduleDate := finalScheduleDate
          scheduleTime := finalScheduleTime
          approvalStatus := some updatedApprovalStatus }
    ({ s with posts := updateById s.posts postId updated }, false, none)

/-- POST /api/posts/approve: the post must exist and the caller must match
the recorded approver; then approveDecide applies. -/
def approve (env : Env) (s : Store) (postId approverId : String)
    (scheduledDate scheduledTime : Option String) :
    Res (Store × Bool × Option Results) :=
  match getById s.posts postId with
  | none => .error "Post no encontrado"
  | some post =>
    match post.approvalStatus with
    | none => .error "No tienes permiso para aprobar este post"
    | some a =>
      if a.approverId != approverId then
        .error "No tienes permiso para aprobar este post"
      else
        .ok (approveDecide env s postId post a scheduledDate scheduledTime)

/-- POST /api/posts/reject: the approver must match; the post row is
hard-deleted (never stored with approved false); when a truthy legacy
mediaUrl exists its storage object is deleted, and a failing storage
delete is caught and tolerated with a warning, leaving storage unchanged.
Storage objects of other media items are not touched by this route. -/
def reject (env : Env) (s : Store) (postId approverId _reason : String) : Res Store :=
  match getById s.posts postId with
  | none => .error "Post no encontrado"
  | some post =>
    match post.approvalStatus with
    | none => .error "No tienes permiso para rechazar este post"
    | some a =>
      if a.approverId != approverId then
        .error "No tienes permiso para rechazar este post"
      else
        let posts := s.posts.filter (fun q => q.id != postId)
        let storage :=
          if strTruthy post.mediaUrl then
            match env.deleteMedia (post.mediaUrl.getD "") with
            | .ok _ => s.storage.filter (fun v => v ≠ post.mediaUrl.getD "")
            | .error _ => s.storage
          else s.storage
        .ok { s with posts := posts, storage := storage }

/-- The media item uploads of the send-for-approval route: each item
carrying inline bytes is uploaded, per-item failures are dropped. -/
def sfaUploadedItems (env : Env) (postData : PostData) : List MediaItem :=
  postData.mediaItems.filterMap (fun it =>
    if strTruthy it.base64Data then
      match env.upload (it.base64Data.getD "") with
      | .ok url =>
        some { url := url
               type := it.type
               fileName := it.fileName
               mimeType := it.mimeType }
      | .error _ => none
    else none)

/-- The legacy single-media fallback of the send-for-approval route: used
only when no media item was uploaded; its upload failure aborts the
request; otherwise the first uploaded item url is kept for backwards
compatibility. -/
def sfaLegacyUrl (env : Env) (postData : PostData)
    (uploadedMediaItems : List MediaItem) : Res (Option String) :=
  if uploadedMediaItems.isEmpty && strTruthy postData.media then
    match env.upload (postData.media.getD "") with
    | .ok url => .ok (some url)
    | .error _ => .error "Error al subir la imagen/video"
  else if !uploadedMediaItems.isEmpty then
    .ok (uploadedMediaItems.head?.map MediaItem.url)
  else .ok none

/-- POST /api/posts/send-for-approval: an approver must be supplied; the
request media are uploaded; the post is upserted with status
pending_approval and fresh approval metadata whose approval flag is
unset. -/
def sendForApproval (env : Env) (s : Store) (userId : String) (postData : PostData)
    (approverId note : String) : Res Store :=
  if approverId == "" then .error "Debe seleccionar un aprobador"
  else
    let postId := if strTruthy postData.id then postData.id.getD "" else env.genId
    let uploadedMediaItems := sfaUploadedItems env postData
    match sfaLegacyUrl env postData uploadedMediaItems with
    | .error e => .error e
    | .ok mediaUrl =>
      let post : Post :=
        { id := postId
          userId := if userId == "" then "default_user" else userId
          caption := postData.caption
          mediaUrl := mediaUrl
          platforms := postData.platforms
          linkedInOrganizationId := postData.linkedInOrganizationId
          pdfTitle := postData.pdfTitle
          scheduleDate := postData.scheduleDate
          scheduleTime := postData.scheduleTime
          status := .pending_approval
          approvalStatus := some
            { approverId := approverId
              requestedBy := userId
              requestedAt := some env.nowIso
              note := note
              approved := none
              approvedAt := none
              rejectedReason := none } }
      let s := { s with storage := s.storage ++ uploadedMediaItems.map MediaItem.url }
      .ok (upsertPost s post uploadedMediaItems false)

/-! Concrete fixtures used by the witnesses and counterexamples below. -/

/-- A post enabling both platforms, scheduled and due. -/
def postBoth : Post :=
  { id := "p1"
    userId := "user1"
    caption := "hello"
    platforms := { facebook := true, linkedin := true }
    scheduleDate := "2025-01-01"
    scheduleTime := "09:00"
    status := .scheduled }

/-- A store holding only postBoth. -/
def storeBoth : Store := { posts := [postBoth] }

/-- An environment where Facebook publishes fine and LinkedIn throws. -/
def envFbOkLiErr : Env :=
  { fb := fun _ => .ok "fb-post-id"
    li := fun _ => .error "LinkedIn posting failed: boom"
    download := fun _ => .ok "data:image/jpeg;base64,AAA"
    upload := fun _ => .ok "u1"
    deleteMedia := fun _ => .ok ()
    parseDT := fun _ _ => 0
    limaNow := 0
    limaDate := "2025-01-01"
    limaTime := "09:05"
    nowIso := "2025-01-01T14:05:00.000Z"
    genId := "gen1" }

/-- An environment where Facebook throws and LinkedIn publishes fine. -/
def envFbErrLiOk : Env :=
  { envFbOkLiErr with
      fb := fun _ => .error "Facebook API error: down"
      li := fun _ => .ok "li-post-id" }

/-- An environment where both adapters publish fine. -/
def envAllOk : Env :=
  { envFbOkLiErr with li := fun _ => .ok "li-post-id" }

/-- A pdf media row as stored in the post_media table. -/
def pdfRow : MediaItem :=
  { url := "u-pdf", type := "pdf", mimeType := some "application/pdf" }

/-- A post whose only medium is one pdf document, Facebook enabled. -/
def postPdfOnly : Post :=
  { id := "p2"
    userId := "user1"
    caption := "report"
    mediaUrl := some "u-pdf"
    platforms := { facebook := true, linkedin := true }
    scheduleDate := "2025-01-01"
    scheduleTime := "09:00"
    status := .scheduled }

/-- A store holding postPdfOnly and its single pdf media row. -/
def storePdf : Store :=
  { posts := [postPdfOnly]
    postMedia := [("p2", [pdfRow])]
    storage := ["u-pdf"] }

/-- An environment whose storage download yields the pdf bytes for the pdf
object and image bytes otherwise. -/
def envPdf : Env :=
  { envAllOk with
      download := fun u =>
        if u == "u-pdf" then .ok "data:application/pdf;base64,AAAA"
        else .ok "data:image/jpeg;base64,AAA" }

/-- An app-level Facebook connection with one page. -/
def fbTokenOnePage : FbToken := { pages := [{ id := "page1", access_token := "tok" }] }

/-- An app-level LinkedIn connection with one organization. -/
def liTokenOneOrg : LiToken := { accessToken := "tok", organizations := [{ id := "org1" }] }

/-- A pending post awaiting approval, already overdue, both platforms. -/
def postPendingDue : Post :=
  { id := "p3"
    userId := "user2"
    caption := "pending"
    platforms := { facebook := true, linkedin := true }
    scheduleDate := "2025-01-01"
    scheduleTime := "08:00"
    status := .pending_approval
    approvalStatus := some { approverId := "boss", requestedBy := "user2" } }

/-- A pending post whose due time is still in the future. -/
def postPendingFuture : Post :=
  { postPendingDue with id := "p4", scheduleDate := "2025-06-01" }

/-- A store holding the two pending posts. -/
def storePending : Store := { posts := [postPendingDue, postPendingFuture] }

/-- A pending post with two uploaded media items; mediaUrl points at the
first one, as the upload routes set it. -/
def postRejectTwoMedia : Post :=
  { id := "p5"
    userId := "user2"
    caption := "two items"
    mediaUrl := some "u1"
    status := .pending_approval
    approvalStatus := some { approverId := "boss", requestedBy := "user2" } }

/-- A store holding postRejectTwoMedia, its two media rows and both storage
objects. -/
def storeRejectTwoMedia : Store :=
  { posts := [postRejectTwoMedia]
    postMedia := [("p5", [{ url := "u1", type := "image" }, { url := "u2", type := "image" }])]
    storage := ["u1", "u2"] }

/-- A post already published. -/
def postPublished : Post :=
  { id := "p6"
    userId := "user1"
    caption := "done"
    status := .published
    publishedAt := some "2024-12-31T10:00:00.000Z"
    results := some { facebook := some (.ok "fb-old"), linkedin := none } }

/-- A store holding the published post. -/
def storePublished : Store := { posts := [postPublished] }

/-- A drafts request reusing the id of the published post. -/
def draftReqPublished : PostData := { id := some "p6", caption := "edited" }

/-- A post still in draft. -/
def postDraft : Post := { id := "p7", userId := "user1", caption := "wip" }

/-- A store holding only the draft post. -/
def storeDraftMix : Store := { posts := [postDraft] }

/-- A store holding the published post and the draft post. -/
def storeDraftTwo : Store := { posts := [postPublished, postDraft] }

/-- A send-for-approval request for a fresh post. -/
def approvalReqNew : PostData := { id := some "p9", caption := "for approval" }

/-- The store produced by sending the fresh post for approval from
storeDraftTwo. -/
def sfaStore : Store :=
  match sendForApproval envAllOk storeDraftTwo "user1" approvalReqNew "boss" "hello" with
  | .ok s2 => s2
  | .error _ => storeDraftTwo

/-- A scheduled, due post whose approval metadata is present but whose
approval flag is still unset. -/
def postUnapproved : Post :=
  { id := "p8"
    userId := "user2"
    caption := "not yet approved"
    platforms := { facebook := true, linkedin := true }
    scheduleDate := "2025-01-01"
    scheduleTime := "08:00"
    status := .scheduled
    approvalStatus := some { approverId := "boss", requestedBy := "user2" } }

/-- A store holding only the unapproved scheduled post. -/
def storeUnapproved : Store := { posts := [postUnapproved] }

/-- A document flow whose initialize step fails. -/
def docEnvInitFails : DocFlowEnv :=
  { initUpload := .error "403"
    putBytes := fun _ => .ok ()
    createPost := fun _ => .ok "urn:li:share:1" }

/-- A document flow whose steps all succeed. -/
def docEnvAllOk : DocFlowEnv :=
  { initUpload := .ok ("https://upload", "urn:li:document:1")
    putBytes := fun _ => .ok ()
    createPost := fun _ => .ok "created" }

/-- The pdf media row after its storage download. -/
def pdfWithData : MediaItem :=
  { pdfRow with base64Data := some "data:application/pdf;base64,AAAA" }

/-- The single-pdf post as the cron pipeline hands it to the adapters. -/
def preparedPdfPost : Post := cronPrepare envPdf storePdf postPdfOnly

/-- The posts of a successful route result (empty on error), a convenience
projection for concrete statements. -/
def resPosts : Res Store → List Post
  | .ok s => s.posts
  | .error _ => []

/-- The storage objects of a successful route result. -/
def resStorage : Res Store → List String
  | .ok s => s.storage
  | .error _ => []

/-- Whether a route result is a success. -/
def resIsOk {α : Type} : Res α → Bool
  | .ok _ => true
  | .error _ => false

/-! Helper lemmas about the store operations and the cron fold. -/

theorem getById_eq_some {l : List Post} {i : String} {p : Post}
    (h : getById l i = some p) : p ∈ l ∧ p.id = i := by
  unfold getById at h
  have h1 := List.find?_some h
  have h2 := List.mem_of_find?_eq_some h
  exact ⟨h2, by simpa using h1⟩

theorem getById_updateById_ne (l : List Post) (i j : String) (p : Post)
    (hne : i ≠ j) (hid : p.id = j) :
    getById (updateById l j p) i = getById l i := by
  induction l with
  | nil => rfl
  | cons q t ih =>
    simp only [updateById, List.map_cons, getById, List.find?] at *
    by_cases h : q.id = j
    · have h0 : (q.id == j) = true := by simp [h]
      have h1 : (p.id == i) = false := by
        simp only [beq_eq_false_iff_ne, ne_eq, hid]
        exact fun he => hne he.symm
      have h2 : (q.id == i) = false := by
        simp only [beq_eq_false_iff_ne, ne_eq, h]
        exact fun he => hne he.symm
      rw [if_pos h0, h1, h2]
      exact ih
    · have h0 : (q.id == j) = false := by simp [h]
      rw [if_neg (by simp [h0])]
      cases hqi : (q.id == i) with
      | true => rfl
      | false => exact ih

theorem getById_updateById_self (l : List Post) (j : String) (p : Post)
    (hex : j ∈ l.map Post.id) (hid : p.id = j) :
    getById (updateById l j p) j = some p := by
  induction l with
  | nil => simp at hex
  | cons q t ih =>
    simp only [List.map_cons, List.mem_cons] at hex
    simp only [updateById, List.map_cons, getById, List.find?]
    by_cases h : q.id = j
    · rw [if_pos (by simp [h])]
      have hp : (p.id == j) = true := by simp [hid]
      rw [hp]
    · rw [if_neg (by simp [h])]
      have h2 : (q.id == j) = false := by simp [h]
      rw [h2]
      exact ih (hex.resolve_left (fun he => h he.symm))

theorem updateById_map_id (l : List Post) (j : String) (p : Post) (hid : p.id = j) :
    (updateById l j p).map Post.id = l.map Post.id := by
  induction l with
  | nil => rfl
  | cons q t ih =>
    by_cases h : q.id = j
    · simp only [updateById, List.map_cons] at *
      rw [if_pos (by simp [h]), ih]
      simp [hid, h]
    · simp only [updateById, List.map_cons] at *
      rw [if_neg (by simp [h]), ih]

theorem mem_updateById {l : List Post} {j : String} {p q : Post}
    (h : q ∈ updateById l j p) : q ∈ l ∨ q = p := by
  unfold updateById at h
  rcases List.mem_map.mp h with ⟨r, hr, he⟩
  by_cases hc : (r.id == j) = true
  · rw [if_pos hc] at he
    exact Or.inr he.symm
  · rw [if_neg hc] at he
    exact Or.inl (he ▸ hr)

theorem cronAttempt_fst_id (env : Env) (s : Store) (post : Post) :
    (cronAttempt env s post).fst.id = post.id := by
  dsimp only [cronAttempt]
  repeat' split
  all_goals rfl

theorem cronAttempt_fst_status (env : Env) (s : Store) (post : Post) :
    (cronAttempt env s post).fst.status = .published ∨
      (cronAttempt env s post).fst.status = .failed := by
  dsimp only [cronAttempt]
  repeat' split
  all_goals first | exact Or.inl rfl | exact Or.inr rfl

theorem cronQuery_mem (s : Store) (p : Post) :
    p ∈ cronQuery s ↔ (p ∈ s.posts ∧ p.status = .scheduled ∧ p.deletedAt = none) := by
  unfold cronQuery
  rw [List.mem_insertionSort, List.mem_filter]
  simp [and_assoc]

theorem cronQuery_sorted (s : Store) : List.Sorted schedLE (cronQuery s) :=
  List.sorted_insertionSort schedLE _

theorem cronFold_map_id (env : Env) (s : Store) (L : List Post) (acc : TickResult) :
    ((L.foldl (cronStep env s) acc).posts).map Post.id = acc.posts.map Post.id := by
  induction L generalizing acc with
  | nil => rfl
  | cons c t ih =>
    rw [List.foldl_cons, ih]
    unfold cronStep
    split
    · rfl
    · split
      · exact updateById_map_id _ _ _ (cronAttempt_fst_id env s c)
      · rfl

theorem cronFold_row_untouched (env : Env) (s : Store) (L : List Post) (acc : TickResult)
    (i : String) (h : ∀ c ∈ L, c.id ≠ i) :
    getById (L.foldl (cronStep env s) acc).posts i = getById acc.posts i := by
  induction L generalizing acc with
  | nil => rfl
  | cons c t ih =>
    rw [List.foldl_cons, ih _ (fun d hd => h d (List.mem_cons_of_mem _ hd))]
    unfold cronStep
    split
    · rfl
    · split
      · exact getById_updateById_ne _ _ _ _
          (fun he => h c (List.mem_cons_self c t) he.symm) (cronAttempt_fst_id env s c)
      · rfl

theorem cronTick_row (env : Env) (s : Store) (p : Post)
    (hnodup : (s.posts.map Post.id).Nodup)
    (hmem : p ∈ s.posts) (hstat : p.status = .scheduled) (hdel : p.deletedAt = none)
    (hskip : cronSkips p = false)
    (hdue : env.parseDT p.scheduleDate p.scheduleTime ≤ env.limaNow) :
    getById (cronTick env s).posts p.id = some (cronAttempt env s p).fst := by
  have hpc : p ∈ cronQuery s := (cronQuery_mem s p).mpr ⟨hmem, hstat, hdel⟩
  obtain ⟨l1, l2, hsplit⟩ := List.append_of_mem hpc
  have hnodupQ : ((cronQuery s).map Post.id).Nodup := by
    have hperm : List.Perm (cronQuery s)
        (s.posts.filter (fun q => q.status == Status.scheduled && q.deletedAt == none)) :=
      List.perm_insertionSort _ _
    have hsub : ((s.posts.filter
        (fun q => q.status == Status.scheduled && q.deletedAt == none)).map Post.id).Nodup :=
      hnodup.sublist ((List.filter_sublist s.posts).map Post.id)
    exact ((hperm.map Post.id).nodup_iff).mpr hsub
  have hno2 : p.id ∉ l2.map Post.id := by
    rw [hsplit] at hnodupQ
    simp only [List.map_append, List.map_cons] at hnodupQ
    exact (List.nodup_cons.mp hnodupQ.of_append_right).1
  have hl2 : ∀ c ∈ l2, c.id ≠ p.id := by
    intro c hc he
    exact hno2 (he ▸ List.mem_map_of_mem Post.id hc)
  unfold cronTick
  rw [hsplit, List.foldl_append, List.foldl_cons]
  rw [cronFold_row_untouched env s l2 _ p.id hl2]
  have hstep : cronStep env s (List.foldl (cronStep env s) ⟨s.posts, []⟩ l1) p =
      { posts := updateById (List.foldl (cronStep env s) ⟨s.posts, []⟩ l1).posts p.id
          (cronAttempt env s p).fst
        calls := (List.foldl (cronStep env s) ⟨s.posts, []⟩ l1).calls ++
          (cronAttempt env s p).snd } := by
    unfold cronStep
    rw [hskip]
    simp only [Bool.false_eq_true, if_false]
    rw [if_pos hdue]
  rw [hstep]
  apply getById_updateById_self _ _ _ _ (cronAttempt_fst_id env s p)
  rw [cronFold_map_id]
  exact List.mem_map_of_mem Post.id hmem

theorem cronTick_row_skipped (env : Env) (s : Store) (p : Post)
    (hnodup : (s.posts.map Post.id).Nodup)
    (hmem : p ∈ s.posts) (hstat : p.status = .scheduled) (hdel : p.deletedAt = none)
    (hskip : cronSkips p = true) :
    getById (cronTick env s).posts p.id = getById s.posts p.id := by
  have hpc : p ∈ cronQuery s := (cronQuery_mem s p).mpr ⟨hmem, hstat, hdel⟩
  obtain ⟨l1, l2, hsplit⟩ := List.append_of_mem hpc
  have hnodupQ : ((cronQuery s).map Post.id).Nodup := by
    have hperm : List.Perm (cronQuery s)
        (s.posts.filter (fun q => q.status == Status.scheduled && q.deletedAt == none)) :=
      List.perm_insertionSort _ _
    have hsub : ((s.posts.filter
        (fun q => q.status == Status.scheduled && q.deletedAt == none)).map Post.id).Nodup :=
      hnodup.sublist ((List.filter_sublist s.posts).map Post.id)
    exact ((hperm.map Post.id).nodup_iff).mpr hsub
  rw [hsplit] at hnodupQ
  simp only [List.map_append, List.map_cons] at hnodupQ
  have hno1 : p.id ∉ l1.map Post.id := by
    intro hin
    exact (List.disjoint_of_nodup_append hnodupQ) hin (List.mem_cons_self _ _)
  have hno2 : p.id ∉ l2.map Post.id :=
    (List.nodup_cons.mp hnodupQ.of_append_right).1
  have hl1 : ∀ c ∈ l1, c.id ≠ p.id := by
    intro c hc he
    exact hno1 (he ▸ List.mem_map_of_mem Post.id hc)
  have hl2 : ∀ c ∈ l2, c.id ≠ p.id := by
    intro c hc he
    exact hno2 (he ▸ List.mem_map_of_mem Post.id hc)
  unfold cronTick
  rw [hsplit, List.foldl_append, List.foldl_cons]
  rw [cronFold_row_untouched env s l2 _ p.id hl2]
  have hstep : cronStep env s (List.foldl (cronStep env s) ⟨s.posts, []⟩ l1) p =
      List.foldl (cronStep env s) ⟨s.posts, []⟩ l1 := by
    unfold cronStep
    rw [hskip]
    simp
  rw [hstep]
  exact cronFold_row_untouched env s l1 _ p.id hl1

theorem cronSkips_eq_false (p : Post)
    (h : p.approvalStatus = none ∨ ∃ a, p.approvalStatus = some a ∧ a.approved = some true) :
    cronSkips p = false := by
  unfold cronSkips
  rcases h with h | ⟨a, ha, hap⟩
  · rw [h]
    rfl
  · rw [ha]
    simp [hap]

theorem approval_ok_of_not_cronSkips (p : Post) (h : cronSkips p = false) :
    p.approvalStatus = none ∨ ∃ a, p.approvalStatus = some a ∧ a.approved = some true := by
  unfold cronSkips at h
  cases ha : p.approvalStatus with
  | none => exact Or.inl rfl
  | some a =>
    rw [ha] at h
    simp only [Bool.or_eq_false_iff, Bool.not_eq_false', beq_iff_eq] at h
    exact Or.inr ⟨a, rfl, h.2⟩

theorem cronFold_calls (env : Env) (s : Store) (L : List Post) (acc : TickResult) :
    ∀ call ∈ (L.foldl (cronStep env s) acc).calls,
      call ∈ acc.calls ∨ ∃ c ∈ L, cronSkips c = false ∧ call ∈ (cronAttempt env s c).snd := by
  induction L generalizing acc with
  | nil =>
    intro call hc
    exact Or.inl hc
  | cons c t ih =>
    intro call hc
    rw [List.foldl_cons] at hc
    rcases ih _ call hc with h | ⟨d, hd, hsk, hcall⟩
    · unfold cronStep at h
      split at h
      · exact Or.inl h
      · split at h
        · rcases List.mem_append.mp h with h1 | h2
          · exact Or.inl h1
          · refine Or.inr ⟨c, List.mem_cons_self _ _, ?_, h2⟩
            simp_all
        · exact Or.inl h
    · exact Or.inr ⟨d, List.mem_cons_of_mem _ hd, hsk, hcall⟩

theorem cronAttempt_calls_post (env : Env) (s : Store) (c : Post) :
    ∀ call ∈ (cronAttempt env s c).snd, call.post = cronPrepare env s c := by
  dsimp only [cronAttempt]
  repeat' split
  all_goals intro call hc
  all_goals simp_all
  all_goals (rcases hc with h | h <;> simp [h])

theorem cronPrepare_approvalStatus (env : Env) (s : Store) (c : Post) :
    (cronPrepare env s c).approvalStatus = c.approvalStatus := by
  dsimp only [cronPrepare]
  repeat' split
  all_goals rfl

theorem cronFold_posts_from (env : Env) (s : Store) (L : List Post) (acc : TickResult) :
    ∀ q ∈ (L.foldl (cronStep env s) acc).posts,
      q ∈ acc.posts ∨ q.status = .published ∨ q.status = .failed := by
  induction L generalizing acc with
  | nil =>
    intro q hq
    exact Or.inl hq
  | cons c t ih =>
    intro q hq
    rw [List.foldl_cons] at hq
    rcases ih _ q hq with h | h
    · unfold cronStep at h
      split at h
      · exact Or.inl h
      · split at h
        · rcases mem_updateById h with h1 | h1
          · exact Or.inl h1
          · subst h1
            exact Or.inr (cronAttempt_fst_status env s c)
        · exact Or.inl h
    · exact Or.inr h

theorem cronAttempt_fb_ok_li_err (env : Env) (s : Store) (p : Post) (v e : String)
    (hfb : p.platforms.facebook = true) (hli : p.platforms.linkedin = true)
    (hfbok : env.fb (cronPrepare env s p) = .ok v)
    (hlierr : env.li (cronPrepare env s p) = .error e) :
    (cronAttempt env s p).fst = { p with status := .failed } ∧
    (cronAttempt env s p).snd =
      [⟨.facebook, cronPrepare env s p⟩, ⟨.linkedin, cronPrepare env s p⟩] := by
  unfold cronAttempt
  simp [hfb, hli, hfbok, hlierr]

theorem cronAttempt_fb_err (env : Env) (s : Store) (p : Post) (e : String)
    (hfb : p.platforms.facebook = true)
    (hfberr : env.fb (cronPrepare env s p) = .error e) :
    (cronAttempt env s p).fst = { p with status := .failed } ∧
    (cronAttempt env s p).snd = [⟨.facebook, cronPrepare env s p⟩] := by
  unfold cronAttempt
  simp [hfb, hfberr]

theorem approve_eq_ok (env : Env) (s : Store) (postId approverId : String)
    (sd st : Option String) (post : Post) (a : ApprovalStatus)
    (hget : getById s.posts postId = some post)
    (happr : post.approvalStatus = some a)
    (hap : a.approverId = approverId) :
    approve env s postId approverId sd st =
      .ok (approveDecide env s postId post a sd st) := by
  unfold approve
  rw [hget]
  dsimp only
  rw [happr]
  dsimp only
  simp [hap]

theorem approveDecide_due (env : Env) (s : Store) (postId : String) (post : Post)
    (a : ApprovalStatus) (sd st : Option String)
    (hle : strLe ((if strTruthy sd then sd.getD "" else post.scheduleDate) ++ " " ++
           (if strTruthy st then st.getD "" else post.scheduleTime))
           (env.limaDate ++ " " ++ env.limaTime) = true) :
    approveDecide env s postId post a sd st =
      ({ s with posts := updateById s.posts postId ({ post with
          status := if approveAnySuccess post (approveResults env s post)
            then Status.published else Status.failed
          publishedAt := if approveAnySuccess post (approveResults env s post)
            then some env.nowIso else none
          results := some (approveResults env s post)
          approvalStatus := some
            { a with approved := some true, approvedAt := some env.nowIso } }) },
       true, some (approveResults env s post)) := by
  unfold approveDecide
  rw [if_pos hle]

theorem approveDecide_notDue (env : Env) (s : Store) (postId : String) (post : Post)
    (a : ApprovalStatus) (sd st : Option String)
    (hgt : strLe ((if strTruthy sd then sd.getD "" else post.scheduleDate) ++ " " ++
           (if strTruthy st then st.getD "" else post.scheduleTime))
           (env.limaDate ++ " " ++ env.limaTime) = false) :
    approveDecide env s postId post a sd st =
      ({ s with posts := updateById s.posts postId ({ post with
          status := Status.scheduled
          scheduleDate := if strTruthy sd then sd.getD "" else post.scheduleDate
          scheduleTime := if strTruthy st then st.getD "" else post.scheduleTime
          approvalStatus := some
            { a with approved := some true, approvedAt := some env.nowIso } }) },
       false, none) := by
  unfold approveDecide
  dsimp only
  rw [hgt]
  rfl

theorem approveAnySuccess_iff (env : Env) (s : Store) (post : Post) :
    approveAnySuccess post (approveResults env s post) = true ↔
      (post.platforms.facebook = true ∧
        ∃ v, env.fb (approvePrepare env s post) = .ok v) ∨
      (post.platforms.linkedin = true ∧
        ∃ v, env.li (approvePrepare env s post) = .ok v) := by
  unfold approveAnySuccess approveResults
  cases hfb : post.platforms.facebook <;> cases hli : post.platforms.linkedin <;>
    cases hf : env.fb (approvePrepare env s post) <;>
    cases hl : env.li (approvePrepare env s post) <;>
    simp [hfb, hli, hf, hl]

theorem upsertPost_status (s : Store) (post : Post) (items : List MediaItem)
    (flag : Bool) (q : Post) (hq : q ∈ (upsertPost s post items flag).posts) :
    q ∈ s.posts ∨ q.status = post.status := by
  unfold upsertPost at hq
  dsimp only at hq
  cases hfind : getById s.posts post.id with
  | some old =>
    rw [hfind] at hq
    rcases mem_updateById hq with h | h
    · exact Or.inl h
    · subst h
      cases flag <;> simp [applyUpsertFields]
  | none =>
    rw [hfind] at hq
    rcases List.mem_append.mp hq with h | h
    · exact Or.inl h
    · simp at h
      subst h
      exact Or.inr rfl

theorem approveDecide_posts (env : Env) (s : Store) (postId : String) (post : Post)
    (a : ApprovalStatus) (sd st : Option String) :
    ∀ q ∈ (approveDecide env s postId post a sd st).fst.posts,
      q ∈ s.posts ∨ q.status ≠ .draft := by
  intro q hq
  by_cases hc : strLe ((if strTruthy sd then sd.getD "" else post.scheduleDate) ++ " " ++
      (if strTruthy st then st.getD "" else post.scheduleTime))
      (env.limaDate ++ " " ++ env.limaTime) = true
  · rw [approveDecide_due env s postId post a sd st hc] at hq
    rcases mem_updateById hq with h | h
    · exact Or.inl h
    · right
      subst h
      split <;> simp
  · rw [approveDecide_notDue env s postId post a sd st (by simpa using hc)] at hq
    rcases mem_updateById hq with h | h
    · exact Or.inl h
    · right
      subst h
      simp

theorem postNow_posts (env : Env) (s : Store) (uid : String) (pd : PostData)
    (s2 : Store) (r : Results) (h : postNow env s uid pd = .ok (s2, r)) :
    ∀ q ∈ s2.posts, q ∈ s.posts ∨ q.status = .published := by
  unfold postNow at h
  split at h
  · cases h
  · rename_i uploaded mediaUrl hupl
    dsimp only at h
    cases hA : postNowAdapters env pd (postNowPrepared env uid pd uploaded) with
    | error e =>
      rw [hA] at h
      cases h
    | ok results =>
      rw [hA] at h
      dsimp only at h
      injection h with h2
      rw [Prod.mk.injEq] at h2
      obtain ⟨h3, _⟩ := h2
      subst h3
      intro q hq
      rcases upsertPost_status _ _ _ _ q hq with hmem | hstat
      · exact Or.inl hmem
      · exact Or.inr hstat

/-! The claims. -/

/-- C10: the candidate query of a Scheduler tick returns exactly the
non-tombstoned posts whose status is scheduled, ordered by schedule date
then schedule time ascending; no tombstoned post and no post in another
status is among the candidates. -/
theorem C10_cron_query_exactly_scheduled_sorted (s : Store) :
    (∀ p, p ∈ cronQuery s ↔
      (p ∈ s.posts ∧ p.status = .scheduled ∧ p.deletedAt = none)) ∧
    List.Sorted schedLE (cronQuery s) :=
  ⟨fun p => cronQuery_mem s p, cronQuery_sorted s⟩

/-- C2: a due, non-tombstoned, scheduled post whose approval metadata is
absent or approved is moved to published or failed by a single Scheduler
tick; it is never left scheduled. -/
theorem C2_tick_settles_due_approved_posts (env : Env) (s : Store) (p : Post)
    (hnodup : (s.posts.map Post.id).Nodup)
    (hmem : p ∈ s.posts) (hdel : p.deletedAt = none) (hstat : p.status = .scheduled)
    (happr : p.approvalStatus = none ∨
      ∃ a, p.approvalStatus = some a ∧ a.approved = some true)
    (hdue : env.parseDT p.scheduleDate p.scheduleTime ≤ env.limaNow) :
    ∃ q, getById (cronTick env s).posts p.id = some q ∧
      (q.status = .published ∨ q.status = .failed) :=
  ⟨(cronAttempt env s p).fst,
    cronTick_row env s p hnodup hmem hstat hdel (cronSkips_eq_false p happr) hdue,
    cronAttempt_fst_status env s p⟩

theorem C2_witness :
    ∃ q, getById (cronTick envAllOk storeBoth).posts postBoth.id = some q ∧
      (q.status = .published ∨ q.status = .failed) :=
  C2_tick_settles_due_approved_posts envAllOk storeBoth postBoth (by decide) (by decide)
    (by decide) (by decide) (Or.inl (by decide)) (by decide)

/-- C3: a Scheduler tick invokes adapters only for posts whose approval
metadata is absent or shows approved strictly true; a post with approval
metadata whose flag is not strictly true is skipped by the guard and its
row is left untouched by the tick; a post without approval metadata passes
the guard. -/
theorem C3_tick_never_calls_adapters_for_unapproved (env : Env) (s : Store) :
    (∀ call ∈ (cronTick env s).calls,
        call.post.approvalStatus = none ∨
          ∃ a, call.post.approvalStatus = some a ∧ a.approved = some true) ∧
    (∀ (p : Post) (a : ApprovalStatus), p.approvalStatus = some a →
        a.approved ≠ some true → cronSkips p = true) ∧
    (∀ (p : Post) (a : ApprovalStatus),
        (s.posts.map Post.id).Nodup → p ∈ s.posts → p.deletedAt = none →
        p.status = .scheduled → p.approvalStatus = some a → a.approved ≠ some true →
        getById (cronTick env s).posts p.id = getById s.posts p.id) ∧
    (∀ p : Post, p.approvalStatus = none → cronSkips p = false) := by
  refine ⟨?_, ?_, ?_, ?_⟩
  · intro call hc
    unfold cronTick at hc
    rcases cronFold_calls env s (cronQuery s) _ call hc with h | ⟨c, _, hsk, hcall⟩
    · simp at h
    · rw [cronAttempt_calls_post env s c call hcall, cronPrepare_approvalStatus]
      exact approval_ok_of_not_cronSkips c hsk
  · intro p a ha hne
    unfold cronSkips
    rw [ha]
    simp [hne]
  · intro p a hnodup hmem hdel hstat ha hne
    apply cronTick_row_skipped env s p hnodup hmem hstat hdel
    unfold cronSkips
    rw [ha]
    simp [hne]
  · intro p h
    exact cronSkips_eq_false p (Or.inl h)

theorem C3_witness :
    (((cronTick envAllOk storeBoth).calls.headD
        ⟨.facebook, postBoth⟩).post.approvalStatus = none ∨
      ∃ a, ((cronTick envAllOk storeBoth).calls.headD
        ⟨.facebook, postBoth⟩).post.approvalStatus = some a ∧ a.approved = some true) ∧
    cronSkips postUnapproved = true ∧
    getById (cronTick envAllOk storeUnapproved).posts postUnapproved.id =
      getById storeUnapproved.posts postUnapproved.id ∧
    cronSkips postBoth = false :=
  ⟨(C3_tick_never_calls_adapters_for_unapproved envAllOk storeBoth).1 _ (by decide),
   (C3_tick_never_calls_adapters_for_unapproved envAllOk storeBoth).2.1 postUnapproved
     { approverId := "boss", requestedBy := "user2" } (by decide) (by decide),
   (C3_tick_never_calls_adapters_for_unapproved envAllOk storeUnapproved).2.2.1
     postUnapproved { approverId := "boss", requestedBy := "user2" }
     (by decide) (by decide) (by decide) (by decide) (by decide) (by decide),
   (C3_tick_never_calls_adapters_for_unapproved envAllOk storeBoth).2.2.2 postBoth
     (by decide)⟩

/-- C1 counterexample: in a Scheduler tick publishing a post that enables
both platforms, the Facebook adapter succeeds yet the persisted status is
failed and the result map is not persisted at all (the LinkedIn failure
message is lost), because the tick has no per-platform catch. -/
theorem C1_counterexample :
    postBoth.platforms.facebook = true ∧
    envFbOkLiErr.fb (cronPrepare envFbOkLiErr storeBoth postBoth) = .ok "fb-post-id" ∧
    envFbOkLiErr.li (cronPrepare envFbOkLiErr storeBoth postBoth) =
      .error "LinkedIn posting failed: boom" ∧
    getById (cronTick envFbOkLiErr storeBoth).posts "p1" =
      some { postBoth with status := .failed } := by decide

/-- C6 counterexample: in a Scheduler tick, a Facebook adapter error
prevents the LinkedIn adapter (enabled on the post) from being invoked at
all, and the error is not converted into a result entry: the post is
marked failed with no results. -/
theorem C6_counterexample :
    postBoth.platforms.linkedin = true ∧
    envFbErrLiOk.fb (cronPrepare envFbErrLiOk storeBoth postBoth) =
      .error "Facebook API error: down" ∧
    (cronTick envFbErrLiOk storeBoth).calls =
      [⟨.facebook, cronPrepare envFbErrLiOk storeBoth postBoth⟩] ∧
    getById (cronTick envFbErrLiOk storeBoth).posts "p1" =
      some { postBoth with status := .failed } := by decide

/-- C4 counterexample: rejecting a post with two uploaded media items
deletes the post row and the legacy mediaUrl object (the storage delete
succeeding), but the second media item object stays in storage. -/
theorem C4_counterexample :
    resIsOk (reject envAllOk storeRejectTwoMedia "p5" "boss" "nope") = true ∧
    "u2" ∈ (getPostMedia storeRejectTwoMedia "p5").map MediaItem.url ∧
    "u2" ∈ resStorage (reject envAllOk storeRejectTwoMedia "p5" "boss" "nope") ∧
    getById (resPosts (reject envAllOk storeRejectTwoMedia "p5" "boss" "nope")) "p5" =
      none := by
  decide

/-- C9 counterexample: the drafts upsert applied to the id of a published
post moves that post back to status draft. -/
theorem C9_counterexample :
    postPublished.status = .published ∧
    getById (resPosts (saveDraft envAllOk storePublished "user1" draftReqPublished))
        "p6" = some { postPublished with caption := "edited", status := .draft } := by
  decide

/-- C7: the code intends to skip pdf documents on Facebook (and the same
post does reach the LinkedIn document flow), but for a post whose only
medium is a pdf the pipeline backfills the legacy media field with the pdf
bytes and postToFacebook then routes them into the single-upload path with
content type application/pdf: the document is uploaded to Facebook rather
than skipped. -/
theorem C7_facebook_uploads_pdf_via_legacy_backfill :
    fbPdfs preparedPdfPost = [pdfWithData] ∧
    liRoute preparedPdfPost = .document pdfWithData ∧
    fbPlan (some fbTokenOnePage) preparedPdfPost =
      .singleUpload "data:application/pdf;base64,AAAA" "application/pdf" false := by
  decide

/-- C5: approve with a matching approver compares the effective schedule
date and time strings lexicographically with the current Lima strings; a
due post is settled to published or failed within the same call, an
undue post becomes scheduled with the effective date and time; in both
branches the approval flag is set true. -/
theorem C5_approve_lexicographic_cutoff (env : Env) (s : Store)
    (postId approverId : String) (sd st : Option String) (post : Post)
    (a : ApprovalStatus)
    (hget : getById s.posts postId = some post)
    (happr : post.approvalStatus = some a)
    (hap : a.approverId = approverId) :
    (strLe ((if strTruthy sd then sd.getD "" else post.scheduleDate) ++ " " ++
        (if strTruthy st then st.getD "" else post.scheduleTime))
        (env.limaDate ++ " " ++ env.limaTime) = true →
      ∃ s2 results q,
        approve env s postId approverId sd st = .ok (s2, true, results) ∧
        getById s2.posts postId = some q ∧
        (q.status = .published ∨ q.status = .failed) ∧
        ∃ a2, q.approvalStatus = some a2 ∧ a2.approved = some true) ∧
    (strLe ((if strTruthy sd then sd.getD "" else post.scheduleDate) ++ " " ++
        (if strTruthy st then st.getD "" else post.scheduleTime))
        (env.limaDate ++ " " ++ env.limaTime) = false →
      ∃ s2 q,
        approve env s postId approverId sd st = .ok (s2, false, none) ∧
        getById s2.posts postId = some q ∧
        q.status = .scheduled ∧
        q.scheduleDate = (if strTruthy sd then sd.getD "" else post.scheduleDate) ∧
        q.scheduleTime = (if strTruthy st then st.getD "" else post.scheduleTime) ∧
        ∃ a2, q.approvalStatus = some a2 ∧ a2.approved = some true) := by
  obtain ⟨hmem, hid⟩ := getById_eq_some hget
  have hex : postId ∈ s.posts.map Post.id := hid ▸ List.mem_map_of_mem Post.id hmem
  constructor
  · intro hle
    have heq := approve_eq_ok env s postId approverId sd st post a hget happr hap
    rw [approveDecide_due env s postId post a sd st hle] at heq
    refine ⟨_, _, ({ post with
        status := if approveAnySuccess post (approveResults env s post)
          then Status.published else Status.failed
        publishedAt := if approveAnySuccess post (approveResults env s post)
          then some env.nowIso else none
        results := some (approveResults env s post)
        approvalStatus := some
          { a with approved := some true, approvedAt := some env.nowIso } } : Post),
      heq, ?_, ?_, ?_⟩
    · exact getById_updateById_self _ _ _ hex hid
    · cases hA : approveAnySuccess post (approveResults env s post) <;> simp [hA]
    · exact ⟨_, rfl, rfl⟩
  · intro hgt
    have heq := approve_eq_ok env s postId approverId sd st post a hget happr hap
    rw [approveDecide_notDue env s postId post a sd st hgt] at heq
    refine ⟨_, ({ post with
        status := Status.scheduled
        scheduleDate := if strTruthy sd then sd.getD "" else post.scheduleDate
        scheduleTime := if strTruthy st then st.getD "" else post.scheduleTime
        approvalStatus := some
          { a with approved := some true, approvedAt := some env.nowIso } } : Post),
      heq, ?_, rfl, rfl, rfl, ?_⟩
    · exact getById_updateById_self _ _ _ hex hid
    · exact ⟨_, rfl, rfl⟩

/-- C6 (amended): in the approve immediate-publish path every adapter error
is caught and stored as that platform result entry and both enabled
adapters are always invoked; in the Scheduler tick, however, a Facebook
adapter error aborts the attempt before the LinkedIn adapter is invoked
and is not converted into a result entry. -/
theorem C6_amended_adapter_error_containment :
    (∀ (env : Env) (s : Store) (postId approverId : String) (sd st : Option String)
        (post : Post) (a : ApprovalStatus),
      getById s.posts postId = some post →
      post.approvalStatus = some a →
      a.approverId = approverId →
      strLe ((if strTruthy sd then sd.getD "" else post.scheduleDate) ++ " " ++
          (if strTruthy st then st.getD "" else post.scheduleTime))
          (env.limaDate ++ " " ++ env.limaTime) = true →
      post.platforms.facebook = true → post.platforms.linkedin = true →
      ∃ s2,
        approve env s postId approverId sd st =
          .ok (s2, true, some (approveResults env s post)) ∧
        (approveResults env s post).facebook =
          some (env.fb (approvePrepare env s post)) ∧
        (approveResults env s post).linkedin =
          some (env.li (approvePrepare env s post))) ∧
    (∀ (env : Env) (s : Store) (p : Post) (e : String),
      (s.posts.map Post.id).Nodup → p ∈ s.posts → p.deletedAt = none →
      p.status = .scheduled → cronSkips p = false →
      env.parseDT p.scheduleDate p.scheduleTime ≤ env.limaNow →
      p.platforms.facebook = true → p.platforms.linkedin = true →
      env.fb (cronPrepare env s p) = .error e →
      (cronAttempt env s p).snd = [⟨.facebook, cronPrepare env s p⟩] ∧
      getById (cronTick env s).posts p.id = some { p with status := .failed }) := by
  constructor
  · intro env s postId approverId sd st post a hget happr hap hle hfb hli
    have heq := approve_eq_ok env s postId approverId sd st post a hget happr hap
    rw [approveDecide_due env s postId post a sd st hle] at heq
    refine ⟨_, heq, ?_, ?_⟩
    · simp [approveResults, hfb]
    · simp [approveResults, hli]
  · intro env s p e hnodup hmem hdel hstat hskip hdue hfb hli hfberr
    have hatt := cronAttempt_fb_err env s p e hfb hfberr
    refine ⟨hatt.2, ?_⟩
    have hrow := cronTick_row env s p hnodup hmem hstat hdel hskip hdue
    rw [hatt.1] at hrow
    exact hrow

/-- C4 (amended): reject with a matching approver hard-deletes the post;
when the storage delete of the legacy mediaUrl object succeeds that object
is removed from storage, while a failing delete is tolerated and leaves
storage unchanged; no other storage object is ever removed, and reject
never stores a post with approved false: if no stored post had approved
false before, none does afterwards. -/
theorem C4_amended_reject_hard_deletes (env : Env) (s : Store)
    (postId approverId reason : String) (post : Post) (a : ApprovalStatus)
    (hget : getById s.posts postId = some post)
    (happr : post.approvalStatus = some a)
    (hap : a.approverId = approverId) :
    ∃ s2, reject env s postId approverId reason = .ok s2 ∧
      getById s2.posts postId = none ∧
      (∀ q ∈ s2.posts, q ∈ s.posts) ∧
      (∀ u, post.mediaUrl = some u → u ≠ "" → env.deleteMedia u = .ok () →
        u ∉ s2.storage) ∧
      (∀ u e, post.mediaUrl = some u → u ≠ "" → env.deleteMedia u = .error e →
        s2.storage = s.storage) ∧
      (∀ v, v ∈ s2.storage → v ∈ s.storage) ∧
      ((∀ q ∈ s.posts, ∀ b, q.approvalStatus = some b → b.approved ≠ some false) →
        ∀ q ∈ s2.posts, ∀ b, q.approvalStatus = some b → b.approved ≠ some false) := by
  have heq : reject env s postId approverId reason =
      .ok { s with
        posts := s.posts.filter (fun q => q.id != postId)
        storage :=
          if strTruthy post.mediaUrl then
            match env.deleteMedia (post.mediaUrl.getD "") with
            | .ok _ => s.storage.filter (fun v => v ≠ post.mediaUrl.getD "")
            | .error _ => s.storage
          else s.storage } := by
    unfold reject
    rw [hget]
    dsimp only
    rw [happr]
    dsimp only
    simp [hap]
  refine ⟨_, heq, ?_, ?_, ?_, ?_, ?_, ?_⟩
  · unfold getById
    apply List.find?_eq_none.mpr
    intro x hx
    have hne := List.of_mem_filter hx
    simpa using hne
  · intro q hq
    exact List.mem_of_mem_filter hq
  · intro u hu hne hdel
    have htru : strTruthy post.mediaUrl = true := by
      rw [hu]
      simpa [strTruthy] using hne
    intro hmem2
    rw [htru] at hmem2
    simp only [if_true] at hmem2
    rw [hu] at hmem2
    simp only [Option.getD_some] at hmem2
    rw [hdel] at hmem2
    have h2 := List.of_mem_filter hmem2
    simp at h2
  · intro u e hu hne hdel
    have htru : strTruthy post.mediaUrl = true := by
      rw [hu]
      simpa [strTruthy] using hne
    show (if strTruthy post.mediaUrl = true then _ else _) = s.storage
    rw [htru]
    simp only [if_true]
    rw [hu]
    simp only [Option.getD_some]
    rw [hdel]
  · intro v hv
    by_cases htru : strTruthy post.mediaUrl = true
    · rw [htru] at hv
      simp only [if_true] at hv
      cases hdel : env.deleteMedia (post.mediaUrl.getD "") with
      | ok pv =>
        rw [hdel] at hv
        exact List.mem_of_mem_filter hv
      | error e =>
        rw [hdel] at hv
        exact hv
    · rw [Bool.not_eq_true] at htru
      rw [htru] at hv
      simpa using hv
  · intro hall q hq b hb
    exact hall q (List.mem_of_mem_filter hq) b hb

/-- C9 (amended): the send-for-approval, schedule, approve, reject and
post-now operations and the Scheduler never move a post into status
draft: any draft row after one of them was already a row of the store
before.  Only the drafts upsert writes status draft, and it does so
unconditionally. -/
theorem C9_amended_no_draft_reentry_outside_drafts_route :
    (∀ (env : Env) (s : Store) (uid : String) (pd : PostData) (s2 : Store),
      schedulePost env s uid pd = .ok s2 →
      ∀ q ∈ s2.posts, q.status = .draft → q ∈ s.posts) ∧
    (∀ (env : Env) (s : Store) (postId approverId : String) (sd st : Option String)
        (s2 : Store) (imm : Bool) (res : Option Results),
      approve env s postId approverId sd st = .ok (s2, imm, res) →
      ∀ q ∈ s2.posts, q.status = .draft → q ∈ s.posts) ∧
    (∀ (env : Env) (s : Store) (postId approverId reason : String) (s2 : Store),
      reject env s postId approverId reason = .ok s2 →
      ∀ q ∈ s2.posts, q ∈ s.posts) ∧
    (∀ (env : Env) (s : Store), ∀ q ∈ (cronTick env s).posts,
      q.status = .draft → q ∈ s.posts) ∧
    (∀ (env : Env) (s : Store) (uid : String) (pd : PostData) (s2 : Store) (r : Results),
      postNow env s uid pd = .ok (s2, r) →
      ∀ q ∈ s2.posts, q.status = .draft → q ∈ s.posts) ∧
    (∀ (env : Env) (s : Store) (uid : String) (pd : PostData)
        (approverId note : String) (s2 : Store),
      sendForApproval env s uid pd approverId note = .ok s2 →
      ∀ q ∈ s2.posts, q.status = .draft → q ∈ s.posts) := by
  refine ⟨?_, ?_, ?_, ?_, ?_, ?_⟩
  · intro env s uid pd s2 h q hq hdraft
    unfold schedulePost at h
    split at h
    · cases h
    · injection h with h2
      subst h2
      rcases upsertPost_status _ _ _ _ q hq with hmem | hstat
      · exact hmem
      · rw [hdraft] at hstat
        simp at hstat
  · intro env s postId approverId sd st s2 imm res h q hq hdraft
    unfold approve at h
    split at h
    · cases h
    · split at h
      · cases h
      · split at h
        · cases h
        · injection h with h2
          have h3 := congrArg Prod.fst h2
          dsimp only at h3
          subst h3
          rcases approveDecide_posts _ _ _ _ _ _ _ q hq with hmem | hstat
          · exact hmem
          · exact absurd hdraft hstat
  · intro env s postId approverId reason s2 h q hq
    unfold reject at h
    split at h
    · cases h
    · split at h
      · cases h
      · split at h
        · cases h
        · injection h with h2
          subst h2
          exact List.mem_of_mem_filter hq
  · intro env s q hq hdraft
    unfold cronTick at hq
    rcases cronFold_posts_from env s (cronQuery s) _ q hq with h | h | h
    · exact h
    · rw [hdraft] at h
      cases h
    · rw [hdraft] at h
      cases h
  · intro env s uid pd s2 r h q hq hdraft
    rcases postNow_posts env s uid pd s2 r h q hq with hmem | hstat
    · exact hmem
    · rw [hdraft] at hstat
      cases hstat
  · intro env s uid pd approverId note s2 h q hq hdraft
    unfold sendForApproval at h
    split at h
    · cases h
    · dsimp only at h
      cases hL : sfaLegacyUrl env pd (sfaUploadedItems env pd) with
      | error e =>
        rw [hL] at h
        cases h
      | ok mediaUrl =>
        rw [hL] at h
        dsimp only at h
        injection h with h2
        subst h2
        rcases upsertPost_status _ _ _ _ q hq with hmem | hstat
        · exact hmem
        · rw [hdraft] at hstat
          simp at hstat

/-- C8: a pdf among the resolved media routes LinkedIn into the document
flow in priority over every other flow, using only the first document; the
flow is the three steps initialize, PUT, create post, and any failing step
makes the whole flow fail with the upload-failed error instead of falling
back to a text-only post. -/
theorem C8_linkedin_document_flow :
    (∀ (tok : LiToken) (postData : Post) (oid : Option String) (org : LiOrg)
        (r : LiRoute) (pdf : MediaItem) (rest : List MediaItem),
      liPdfs postData = pdf :: rest →
      liPlan (some tok) postData oid = .route org r →
      r = .document pdf) ∧
    (∀ (env : DocFlowEnv) (v : String), runDocumentFlow env = .ok v →
      ∃ u urn, env.initUpload = .ok (u, urn) ∧ env.putBytes u = .ok () ∧
        env.createPost urn = .ok v) ∧
    (∀ (env : DocFlowEnv) (e : String), env.initUpload = .error e →
      runDocumentFlow env = .error ("LinkedIn PDF upload failed: " ++ e)) ∧
    (∀ (env : DocFlowEnv) (u urn e : String),
      env.initUpload = .ok (u, urn) → env.putBytes u = .error e →
      runDocumentFlow env = .error ("LinkedIn PDF upload failed: " ++ e)) ∧
    (∀ (env : DocFlowEnv) (u urn e : String),
      env.initUpload = .ok (u, urn) → env.putBytes u = .ok () →
      env.createPost urn = .error e →
      runDocumentFlow env = .error ("LinkedIn PDF upload failed: " ++ e)) := by
  refine ⟨?_, ?_, ?_, ?_, ?_⟩
  · intro tok postData oid org r pdf rest hpdfs hplan
    have hr : r = liRoute postData := by
      unfold liPlan at hplan
      cases oid with
      | some o =>
        dsimp only at hplan
        cases hf : tok.organizations.find? (fun x => x.id == o) with
        | none =>
          rw [hf] at hplan
          cases hplan
        | some og =>
          rw [hf] at hplan
          injection hplan with h1 h2
          exact h2.symm
      | none =>
        dsimp only at hplan
        cases ho : tok.organizations with
        | nil =>
          rw [ho] at hplan
          cases hplan
        | cons o t =>
          rw [ho] at hplan
          injection hplan with h1 h2
          exact h2.symm
    rw [hr]
    unfold liRoute
    dsimp only
    rw [hpdfs]
  · intro env v h
    unfold runDocumentFlow at h
    cases hi : env.initUpload with
    | error e =>
      rw [hi] at h
      cases h
    | ok p =>
      obtain ⟨u, urn⟩ := p
      rw [hi] at h
      dsimp only at h
      cases hp : env.putBytes u with
      | error e =>
        rw [hp] at h
        cases h
      | ok pv =>
        rw [hp] at h
        dsimp only at h
        cases hc : env.createPost urn with
        | error e =>
          rw [hc] at h
          cases h
        | ok w =>
          rw [hc] at h
          cases h
          cases pv
          exact ⟨u, urn, rfl, hp, hc⟩
  · intro env e hi
    unfold runDocumentFlow
    rw [hi]
  · intro env u urn e hi hp
    unfold runDocumentFlow
    rw [hi]
    dsimp only
    rw [hp]
  · intro env u urn e hi hp hc
    unfold runDocumentFlow
    rw [hi]
    dsimp only
    rw [hp]
    dsimp only
    rw [hc]

/-- C1 (amended): in the approve immediate-publish path the persisted
status is published exactly when at least one enabled adapter succeeded
(failed otherwise) and every enabled platform outcome, success or failure
message, is persisted in the result map; in the Scheduler tick, however,
a LinkedIn error thrown after a Facebook success marks the post failed
without persisting any result map. -/
theorem C1_amended_any_success_wins :
    (∀ (env : Env) (s : Store) (postId approverId : String) (sd st : Option String)
        (post : Post) (a : ApprovalStatus),
      getById s.posts postId = some post →
      post.approvalStatus = some a →
      a.approverId = approverId →
      strLe ((if strTruthy sd then sd.getD "" else post.scheduleDate) ++ " " ++
          (if strTruthy st then st.getD "" else post.scheduleTime))
          (env.limaDate ++ " " ++ env.limaTime) = true →
      ∃ s2 q,
        approve env s postId approverId sd st =
          .ok (s2, true, some (approveResults env s post)) ∧
        getById s2.posts postId = some q ∧
        q.results = some (approveResults env s post) ∧
        (approveResults env s post).facebook =
          (if post.platforms.facebook then some (env.fb (approvePrepare env s post))
           else none) ∧
        (approveResults env s post).linkedin =
          (if post.platforms.linkedin then some (env.li (approvePrepare env s post))
           else none) ∧
        (q.status = .published ∨ q.status = .failed) ∧
        (q.status = .published ↔
          ((post.platforms.facebook = true ∧
              ∃ v, env.fb (approvePrepare env s post) = .ok v) ∨
           (post.platforms.linkedin = true ∧
              ∃ v, env.li (approvePrepare env s post) = .ok v)))) ∧
    (∀ (env : Env) (s : Store) (p : Post) (v e : String),
      (s.posts.map Post.id).Nodup → p ∈ s.posts → p.deletedAt = none →
      p.status = .scheduled → cronSkips p = false →
      env.parseDT p.scheduleDate p.scheduleTime ≤ env.limaNow →
      p.platforms.facebook = true → p.platforms.linkedin = true →
      env.fb (cronPrepare env s p) = .ok v →
      env.li (cronPrepare env s p) = .error e →
      getById (cronTick env s).posts p.id = some { p with status := .failed }) := by
  constructor
  · intro env s postId approverId sd st post a hget happr hap hle
    obtain ⟨hmem, hid⟩ := getById_eq_some hget
    have hex : postId ∈ s.posts.map Post.id := hid ▸ List.mem_map_of_mem Post.id hmem
    have heq := approve_eq_ok env s postId approverId sd st post a hget happr hap
    rw [approveDecide_due env s postId post a sd st hle] at heq
    refine ⟨_, ({ post with
        status := if approveAnySuccess post (approveResults env s post)
          then Status.published else Status.failed
        publishedAt := if approveAnySuccess post (approveResults env s post)
          then some env.nowIso else none
        results := some (approveResults env s post)
        approvalStatus := some
          { a with approved := some true, approvedAt := some env.nowIso } } : Post),
      heq, getById_updateById_self _ _ _ hex hid, rfl, rfl, rfl, ?_, ?_⟩
    · cases hA : approveAnySuccess post (approveResults env s post) <;> simp [hA]
    · rw [← approveAnySuccess_iff env s post]
      cases hA : approveAnySuccess post (approveResults env s post) <;> simp [hA]
  · intro env s p v e hnodup hmem hdel hstat hskip hdue hfb hli hfbok hlierr
    have hrow := cronTick_row env s p hnodup hmem hstat hdel hskip hdue
    rw [(cronAttempt_fb_ok_li_err env s p v e hfb hli hfbok hlierr).1] at hrow
    exact hrow

theorem C5_witness :
    (∃ s2 results q,
      approve envAllOk storePending "p3" "boss" none none = .ok (s2, true, results) ∧
      getById s2.posts "p3" = some q ∧
      (q.status = .published ∨ q.status = .failed) ∧
      ∃ a2, q.approvalStatus = some a2 ∧ a2.approved = some true) ∧
    (∃ s2 q,
      approve envAllOk storePending "p4" "boss" none none = .ok (s2, false, none) ∧
      getById s2.posts "p4" = some q ∧
      q.status = .scheduled ∧
      q.scheduleDate = postPendingFuture.scheduleDate ∧
      q.scheduleTime = postPendingFuture.scheduleTime ∧
      ∃ a2, q.approvalStatus = some a2 ∧ a2.approved = some true) :=
  ⟨(C5_approve_lexicographic_cutoff envAllOk storePending "p3" "boss" none none
      postPendingDue { approverId := "boss", requestedBy := "user2" }
      (by decide) (by decide) rfl).1 (by decide),
   (C5_approve_lexicographic_cutoff envAllOk storePending "p4" "boss" none none
      postPendingFuture { approverId := "boss", requestedBy := "user2" }
      (by decide) (by decide) rfl).2 (by decide)⟩

theorem C9_witness :
    postDraft ∈ storeDraftMix.posts ∧ postDraft ∈ storeDraftTwo.posts :=
  ⟨(C9_amended_no_draft_reentry_outside_drafts_route).2.2.2.1 envAllOk storeDraftMix
      postDraft (by decide) (by decide),
   (C9_amended_no_draft_reentry_outside_drafts_route).2.2.2.2.2 envAllOk storeDraftTwo
      "user1" approvalReqNew "boss" "hello" sfaStore (by decide) postDraft
      (by decide) (by decide)⟩

theorem C4_witness :
    ∃ s2, reject envAllOk storeRejectTwoMedia "p5" "boss" "dup" = .ok s2 ∧
      getById s2.posts "p5" = none ∧
      (∀ q ∈ s2.posts, q ∈ storeRejectTwoMedia.posts) ∧
      (∀ u, postRejectTwoMedia.mediaUrl = some u → u ≠ "" →
        envAllOk.deleteMedia u = .ok () → u ∉ s2.storage) ∧
      (∀ u e, postRejectTwoMedia.mediaUrl = some u → u ≠ "" →
        envAllOk.deleteMedia u = .error e → s2.storage = storeRejectTwoMedia.storage) ∧
      (∀ v, v ∈ s2.storage → v ∈ storeRejectTwoMedia.storage) ∧
      ((∀ q ∈ storeRejectTwoMedia.posts, ∀ b,
          q.approvalStatus = some b → b.approved ≠ some false) →
        ∀ q ∈ s2.posts, ∀ b, q.approvalStatus = some b → b.approved ≠ some false) :=
  C4_amended_reject_hard_deletes envAllOk storeRejectTwoMedia "p5" "boss" "dup"
    postRejectTwoMedia { approverId := "boss", requestedBy := "user2" }
    (by decide) (by decide) rfl

theorem C8_witness :
    ((.document pdfWithData : LiRoute) = .document pdfWithData) ∧
    runDocumentFlow docEnvInitFails = .error ("LinkedIn PDF upload failed: " ++ "403") :=
  ⟨C8_linkedin_document_flow.1 liTokenOneOrg preparedPdfPost none { id := "org1" }
      (.document pdfWithData) pdfWithData [] (by decide) (by decide),
   C8_linkedin_document_flow.2.2.1 docEnvInitFails "403" (by decide)⟩

theorem C6_witness :
    (∃ s2,
      approve envFbErrLiOk storePending "p3" "boss" none none =
        .ok (s2, true, some (approveResults envFbErrLiOk storePending postPendingDue)) ∧
      (approveResults envFbErrLiOk storePending postPendingDue).facebook =
        some (envFbErrLiOk.fb (approvePrepare envFbErrLiOk storePending postPendingDue)) ∧
      (approveResults envFbErrLiOk storePending postPendingDue).linkedin =
        some (envFbErrLiOk.li (approvePrepare envFbErrLiOk storePending postPendingDue))) ∧
    ((cronAttempt envFbErrLiOk storeBoth postBoth).snd =
        [⟨.facebook, cronPrepare envFbErrLiOk storeBoth postBoth⟩] ∧
      getById (cronTick envFbErrLiOk storeBoth).posts postBoth.id =
        some { postBoth with status := .failed }) :=
  ⟨(C6_amended_adapter_error_containment).1 envFbErrLiOk storePending "p3" "boss"
      none none postPendingDue { approverId := "boss", requestedBy := "user2" }
      (by decide) (by decide) rfl (by decide) (by decide) (by decide),
   (C6_amended_adapter_error_containment).2 envFbErrLiOk storeBoth postBoth
      "Facebook API error: down" (by decide) (by decide) (by decide) (by decide)
      (by decide) (by decide) (by decide) (by decide) (by decide)⟩

theorem C1_witness :
    (∃ s2 q,
      approve envFbOkLiErr storePending "p3" "boss" none none =
        .ok (s2, true, some (approveResults envFbOkLiErr storePending postPendingDue)) ∧
      getById s2.posts "p3" = some q ∧
      q.results = some (approveResults envFbOkLiErr storePending postPendingDue) ∧
      (approveResults envFbOkLiErr storePending postPendingDue).facebook =
        (if postPendingDue.platforms.facebook then
          some (envFbOkLiErr.fb (approvePrepare envFbOkLiErr storePending postPendingDue))
         else none) ∧
      (approveResults envFbOkLiErr storePending postPendingDue).linkedin =
        (if postPendingDue.platforms.linkedin then
          some (envFbOkLiErr.li (approvePrepare envFbOkLiErr storePending postPendingDue))
         else none) ∧
      (q.status = .published ∨ q.status = .failed) ∧
      (q.status = .published ↔
        ((postPendingDue.platforms.facebook = true ∧
            ∃ v, envFbOkLiErr.fb (approvePrepare envFbOkLiErr storePending postPendingDue) =
              .ok v) ∨
         (postPendingDue.platforms.linkedin = true ∧
            ∃ v, envFbOkLiErr.li (approvePrepare envFbOkLiErr storePending postPendingDue) =
              .ok v)))) ∧
    getById (cronTick envFbOkLiErr storeBoth).posts postBoth.id =
      some { postBoth with status := .failed } :=
  ⟨(C1_amended_any_success_wins).1 envFbOkLiErr storePending "p3" "boss" none none
      postPendingDue { approverId := "boss", requestedBy := "user2" }
      (by decide) (by decide) rfl (by decide),
   (C1_amended_any_success_wins).2 envFbOkLiErr storeBoth postBoth "fb-post-id"
      "LinkedIn posting failed: boom" (by decide) (by decide) (by decide) (by decide)
      (by decide) (by decide) (by decide) (by decide) (by decide) (by decide)⟩

theorem C10_witness :
    postBoth ∈ cronQuery storeBoth ∧ List.Sorted schedLE (cronQuery storeBoth) :=
  ⟨((C10_cron_query_exactly_scheduled_sorted storeBoth).1 postBoth).mpr
      ⟨by decide, by decide, by decide⟩,
   (C10_cron_query_exactly_scheduled_sorted storeBoth).2⟩
